import Mathlib

/-!
Verification development for the configuration-management core of a chatbot
backend (`api/core/config_manager.py`, `api/core/config_models.py`,
`api/core/config_watcher.py`).

The embedding models Python runtime values with `PyVal` (the configuration
tree is a pydantic object whose sections hold typed fields, but attribute
assignment is unvalidated, so values are modelled untyped).  Python floats
appear only as decimal literals and in order comparisons here, so they are
modelled as rationals.  Timestamps (`time.time()` results) are likewise
modelled as rationals and are passed explicitly to the operations that read
the clock.  File I/O is modelled by an explicit `file` component plus a
boolean parameter giving the outcome of each write, mirroring the fact that
`save_config` returns a bool and never raises.
-/

set_option maxRecDepth 2048

namespace ChatbotConfigCore

/-- Model of the Python runtime values stored in the configuration tree and
in `ConfigChange.old_value` / `new_value` (`Any` in the source). -/
inductive PyVal where
  | vStr (s : String)
  | vInt (n : Int)
  | vFloat (q : Rat)
  | vBool (b : Bool)
  | vList (elems : List PyVal)
  | vDict (entries : List (String × PyVal))
  | vNone

/-- Numeric view used by Python `==`: `bool` is a subtype of `int`, and
`int == float` compares numerically. -/
def PyVal.toNum? : PyVal → Option Rat
  | .vInt n => some (mkRat n 1)
  | .vFloat q => some q
  | .vBool b => some (if b then 1 else 0)
  | _ => none

/-- Equality of rationals, compared on the (always reduced) numerator and
denominator. -/
def ratEqB (x y : Rat) : Bool :=
  x.num == y.num && x.den == y.den

mutual

/-- Model of Python `==` on the values above.  Dictionaries are compared
entry-by-entry in order; in this development dictionaries are only ever
compared between dumps sharing the canonical schema ordering, where this
coincides with Python's order-insensitive dict equality. -/
def pyEq : PyVal → PyVal → Bool
  | .vStr a, .vStr b => a == b
  | .vList xs, .vList ys => pyEqList xs ys
  | .vDict xs, .vDict ys => pyEqEntries xs ys
  | .vNone, .vNone => true
  | a, b =>
    match a.toNum?, b.toNum? with
    | some x, some y => ratEqB x y
    | _, _ => false

def pyEqList : List PyVal → List PyVal → Bool
  | [], [] => true
  | x :: xs, y :: ys => pyEq x y && pyEqList xs ys
  | _, _ => false

def pyEqEntries : List (String × PyVal) → List (String × PyVal) → Bool
  | [], [] => true
  | (k, v) :: xs, (k2, v2) :: ys => k == k2 && pyEq v v2 && pyEqEntries xs ys
  | _, _ => false

end

/-- A Python dict with string keys (`Dict[str, Any]`). -/
abbrev PyDict := List (String × PyVal)

/-- `d.get(k)` / `d[k]` on a string-keyed association list (first match). -/
def lookupKey {α : Type} : List (String × α) → String → Option α
  | [], _ => none
  | (a, b) :: rest, k => if a = k then some b else lookupKey rest k

/-- `d[k] = v` on a Python dict: overwrite in place when the key exists,
append otherwise. -/
def setItem (d : PyDict) (k : String) (v : PyVal) : PyDict :=
  if d.any (fun p => decide (p.1 = k)) then
    d.map (fun p => if p.1 = k then (p.1, v) else p)
  else
    d ++ [(k, v)]

mutual

/-- The merged value stored for one source key by `_deep_merge`: when the
key is already in the result and both sides hold a dict, recurse;
otherwise the source value wins.  (`deepMergeVal tv sv` is called exactly
when the key is present with current value `tv`.) -/
def deepMergeVal : PyVal → PyVal → PyVal
  | PyVal.vDict tEntries, PyVal.vDict sEntries => PyVal.vDict (deepMergeGo tEntries sEntries)
  | _, sv => sv

/-- The loop of `_deep_merge`: `result` starts as a copy of the target and
each source item is written into it (`result[key] = ...`). -/
def deepMergeGo (result : PyDict) : PyDict → PyDict
  | [] => result
  | (key, value) :: rest =>
    let newVal :=
      match lookupKey result key with
      | some tv => deepMergeVal tv value
      | none => value
    deepMergeGo (setItem result key newVal) rest

end

/-- `ConfigManager._deep_merge`: copy the target, then for each key of the
source, recurse when both sides hold a dict at that key and overwrite
otherwise.  The Python function deep-copies, so it mutates neither input;
purity is inherent in this functional embedding. -/
def _deep_merge (target source : PyDict) : PyDict :=
  deepMergeGo target source

/-- Numeric value of a list of decimal digit characters. -/
def digitsVal (l : List Char) : Nat :=
  l.foldl (fun a c => a * 10 + (c.toNat - 48)) 0

/-- Model of Python `int(s)` (decimal notation with optional sign, the only
shape the configuration code feeds it; surrounding whitespace is ignored,
as `int` itself ignores it). -/
def pyInt? (s : String) : Option Int :=
  match s.trim.data with
  | [] => none
  | '-' :: rest =>
    if rest ≠ [] ∧ rest.all Char.isDigit then some (-(digitsVal rest : Int)) else none
  | '+' :: rest =>
    if rest ≠ [] ∧ rest.all Char.isDigit then some (digitsVal rest : Int) else none
  | l => if l.all Char.isDigit then some (digitsVal l : Int) else none

/-- Model of Python `float(s)` restricted to plain decimal notation
(optional sign, digits, optional fractional part), the only shape the
configuration code feeds it. -/
def pyFloat? (s : String) : Option Rat :=
  let t := s.trim
  let signBody : Rat × List Char :=
    match t.data with
    | '-' :: rest => (-1, rest)
    | '+' :: rest => (1, rest)
    | l => (1, l)
  match (String.mk signBody.2).splitOn "." with
  | [a] =>
    if a ≠ "" ∧ a.data.all Char.isDigit then
      some (signBody.1 * mkRat (Int.ofNat (digitsVal a.data)) 1)
    else none
  | [a, b] =>
    if (a ≠ "" ∨ b ≠ "") ∧ a.data.all Char.isDigit ∧ b.data.all Char.isDigit then
      some (signBody.1 *
        (mkRat (Int.ofNat (digitsVal a.data)) 1 +
          mkRat (Int.ofNat (digitsVal b.data)) (10 ^ b.length)))
    else none
  | _ => none

/-- One item of a JSON string array: a double-quoted string (no escapes). -/
def jsonStrItem? (s : String) : Option PyVal :=
  let t := s.trim
  match t.data with
  | '"' :: rest =>
    match rest.reverse with
    | '"' :: midRev =>
      let mid := midRev.reverse
      if '"' ∈ mid then none else some (PyVal.vStr (String.mk mid))
    | _ => none
  | _ => none

/-- Model of `json.loads` restricted to arrays of plain double-quoted
strings (no escapes, no embedded commas) — the only JSON the configuration
code stores in list-typed fields. -/
def jsonStrList? (s : String) : Option PyVal :=
  let t := s.trim
  match t.data with
  | '[' :: rest =>
    match rest.reverse with
    | ']' :: midRev =>
      let mid := String.mk midRev.reverse
      if mid.trim = "" then some (PyVal.vList [])
      else ((mid.splitOn ",").mapM jsonStrItem?).map PyVal.vList
    | _ => none
  | _ => none

/-- Python truthiness (`not value`). -/
def pyFalsy : PyVal → Bool
  | .vStr s => s = ""
  | .vInt n => n = 0
  | .vFloat q => ratEqB q 0
  | .vBool b => !b
  | .vList l => l.isEmpty
  | .vDict d => d.isEmpty
  | .vNone => true

/-! ## Schema (`config_models.py`)

Static types, defaults and `Field(ge=..., le=...)` bounds of every section,
in pydantic field-declaration order. -/

/-- Static type tag of a schema field. -/
inductive FType where
  | fStr | fInt | fFloat | fBool | fListStr | fOptStr

/-- Declared type, default and numeric bounds of one schema field. -/
structure FieldSpec where
  ftype : FType
  dflt : PyVal
  geBound : Option Rat := none
  leBound : Option Rat := none

def appFields : List (String × FieldSpec) :=
  [("name", ⟨.fStr, .vStr "チャットボットシステム", none, none⟩),
   ("version", ⟨.fStr, .vStr "1.0.0", none, none⟩),
   ("debug", ⟨.fBool, .vBool false, none, none⟩)]

def backendFields : List (String × FieldSpec) :=
  [("host", ⟨.fStr, .vStr "0.0.0.0", none, none⟩),
   ("port", ⟨.fInt, .vInt 8000, some 1, some 65535⟩),
   ("reload", ⟨.fBool, .vBool true, none, none⟩)]

def frontendFields : List (String × FieldSpec) :=
  [("host", ⟨.fStr, .vStr "localhost", none, none⟩),
   ("port", ⟨.fInt, .vInt 3000, some 1, some 65535⟩)]

def corsFields : List (String × FieldSpec) :=
  [("origins", ⟨.fListStr,
     .vList [.vStr "http://localhost:3000", .vStr "http://localhost:5173"], none, none⟩)]

def qdrantFields : List (String × FieldSpec) :=
  [("host", ⟨.fStr, .vStr "localhost", none, none⟩),
   ("port", ⟨.fInt, .vInt 6333, some 1, some 65535⟩),
   ("grpc_port", ⟨.fInt, .vInt 6334, some 1, some 65535⟩),
   ("collection_name", ⟨.fStr, .vStr "chatbot_knowledge", none, none⟩),
   ("api_key", ⟨.fOptStr, .vNone, none, none⟩)]

def llmFields : List (String × FieldSpec) :=
  [("provider", ⟨.fStr, .vStr "openai", none, none⟩),
   ("api_base", ⟨.fStr, .vStr "https://api.openai.com/v1", none, none⟩),
   ("api_key", ⟨.fStr, .vStr "nokey", none, none⟩),
   ("model_name", ⟨.fStr, .vStr "gpt-3.5-turbo", none, none⟩),
   ("temperature", ⟨.fFloat, .vFloat 0.7, some 0, some 2⟩),
   ("max_tokens", ⟨.fInt, .vInt 128000, some 1, none⟩),
   ("top_p", ⟨.fFloat, .vFloat 1, some 0, some 1⟩),
   ("frequency_penalty", ⟨.fFloat, .vFloat 0, some (-2), some 2⟩),
   ("presence_penalty", ⟨.fFloat, .vFloat 0, some (-2), some 2⟩)]

def embeddingFields : List (String × FieldSpec) :=
  [("provider", ⟨.fStr, .vStr "ollama", none, none⟩),
   ("base_url", ⟨.fStr, .vStr "http://localhost:11434", none, none⟩),
   ("model_name", ⟨.fStr, .vStr "nomic-embed-text:latest", none, none⟩),
   ("api_key", ⟨.fStr, .vStr "", none, none⟩),
   ("dimension", ⟨.fInt, .vInt 768, some 1, none⟩)]

def uploadFields : List (String × FieldSpec) :=
  [("directory", ⟨.fStr, .vStr "./uploads", none, none⟩),
   ("max_file_size", ⟨.fInt, .vInt 10485760, some 1, none⟩)]

def databaseFields : List (String × FieldSpec) :=
  [("host", ⟨.fStr, .vStr "localhost", none, none⟩),
   ("port", ⟨.fInt, .vInt 3306, some 1, some 65535⟩),
   ("username", ⟨.fStr, .vStr "root", none, none⟩),
   ("password", ⟨.fStr, .vStr "", none, none⟩),
   ("database", ⟨.fStr, .vStr "chatbot", none, none⟩),
   ("ssl", ⟨.fBool, .vBool false, none, none⟩),
   ("pool_size", ⟨.fInt, .vInt 20, some 1, some 100⟩),
   ("max_overflow", ⟨.fInt, .vInt 30, some 1, some 50⟩),
   ("pool_recycle", ⟨.fInt, .vInt 3600, some 300, none⟩),
   ("echo_sql", ⟨.fBool, .vBool false, none, none⟩)]

def promptTemplateDefault : String :=
  "以下の会話履歴とコンテキストを使用して、最後の質問に答えてください。\n\n会話履歴:\n{chat_history}\n\nコンテキスト:\n{context}\n\n質問: {question}\n\n回答:"

def chatFields : List (String × FieldSpec) :=
  [("max_history", ⟨.fInt, .vInt 10, some 1, some 50⟩),
   ("prompt_template", ⟨.fStr, .vStr promptTemplateDefault, none, none⟩),
   ("user_label", ⟨.fStr, .vStr "ユーザー", none, none⟩),
   ("assistant_label", ⟨.fStr, .vStr "アシスタント", none, none⟩)]

def securityFields : List (String × FieldSpec) :=
  [("secret_key", ⟨.fStr, .vStr "your-secret-key-here", none, none⟩),
   ("algorithm", ⟨.fStr, .vStr "HS256", none, none⟩),
   ("access_token_expire_minutes", ⟨.fInt, .vInt 30, some 1, none⟩)]

def loggingFields : List (String × FieldSpec) :=
  [("level", ⟨.fStr, .vStr "INFO", none, none⟩),
   ("format", ⟨.fStr, .vStr "%(asctime)s - %(name)s - %(levelname)s - %(message)s", none, none⟩),
   ("file", ⟨.fStr, .vStr "app.log", none, none⟩)]

/-- Sections of `ChatbotConfig` in pydantic field-declaration order (which
is also the `model_dump` key order). -/
def schemaSections : List (String × List (String × FieldSpec)) :=
  [("app", appFields), ("backend", backendFields), ("frontend", frontendFields),
   ("cors", corsFields), ("qdrant", qdrantFields), ("llm", llmFields),
   ("embedding", embeddingFields), ("upload", uploadFields), ("database", databaseFields),
   ("chat", chatFields), ("security", securityFields), ("logging", loggingFields)]

/-- A section holding every field's schema default (`AppConfig()`, ...). -/
def defaultSection (specs : List (String × FieldSpec)) : PyDict :=
  specs.map (fun p => (p.1, p.2.dflt))

/-- `ChatbotConfig().model_dump()`: the full default tree. -/
def defaultTree : PyDict :=
  schemaSections.map (fun p => (p.1, PyVal.vDict (defaultSection p.2)))

/-! ## Pydantic construction of `ChatbotConfig(**data)`

Pydantic v2 defaults are in force: `validate_assignment` is off (attribute
assignment is unchecked), `validate_default` is off (a field that falls back
to its default runs no validator), extra keys are ignored, and fields are
validated in declaration order with `info.data` holding the values (provided
or defaulted) of the fields processed so far. -/

/-- Attribute read on a constructed section object (attributes always exist
by construction). -/
def getField (sec : PyDict) (f : String) : PyVal :=
  (lookupKey sec f).getD PyVal.vNone

/-- Pydantic lax validation of a provided field value against its declared
type and `ge`/`le` bounds (restricted to the conversions this repository
can actually trigger). -/
def validateProvided (sp : FieldSpec) (v : PyVal) : Except String PyVal := do
  let v' ←
    match sp.ftype, v with
    | .fStr, .vStr s => Except.ok (PyVal.vStr s)
    | .fInt, .vInt n => Except.ok (PyVal.vInt n)
    | .fInt, .vFloat q =>
      if q.den = 1 then Except.ok (PyVal.vInt q.num) else Except.error "value is not a valid integer"
    | .fInt, .vStr s =>
      match pyInt? s with
      | some n => Except.ok (PyVal.vInt n)
      | none => Except.error "value is not a valid integer"
    | .fFloat, .vFloat q => Except.ok (PyVal.vFloat q)
    | .fFloat, .vInt n => Except.ok (PyVal.vFloat (mkRat n 1))
    | .fFloat, .vStr s =>
      match pyFloat? s with
      | some q => Except.ok (PyVal.vFloat q)
      | none => Except.error "value is not a valid float"
    | .fBool, .vBool b => Except.ok (PyVal.vBool b)
    | .fListStr, .vList xs =>
      if xs.all (fun x => match x with | .vStr _ => true | _ => false) then
        Except.ok (PyVal.vList xs)
      else Except.error "value is not a valid list of strings"
    | .fOptStr, .vNone => Except.ok PyVal.vNone
    | .fOptStr, .vStr s => Except.ok (PyVal.vStr s)
    | _, _ => Except.error "value has an invalid type"
  let boundsOk : Bool :=
    match v'.toNum? with
    | some q =>
      sp.geBound.all (fun g => decide (g ≤ q)) && sp.leBound.all (fun l => decide (q ≤ l))
    | none => true
  if boundsOk then Except.ok v' else Except.error "value violates a declared constraint"

/-- Validate the provided entries of one section: provided fields go through
`validateProvided`, missing fields take their (unvalidated) defaults. -/
def buildSectionFields (specs : List (String × FieldSpec)) (entries : PyDict) :
    Except String PyDict :=
  specs.mapM (fun p =>
    match lookupKey entries p.1 with
    | some v => (validateProvided p.2 v).map (fun v' => (p.1, v'))
    | none => Except.ok (p.1, p.2.dflt))

/-- Whether a key was provided in the input mapping. -/
def provided (entries : PyDict) (k : String) : Bool :=
  (lookupKey entries k).isSome

/-- A section with no field validators of its own (`AppConfig(**d)`, ...). -/
def buildPlainSection (name : String) (specs : List (String × FieldSpec))
    (d : Option PyVal) : Except String PyDict :=
  match d with
  | none => Except.ok (defaultSection specs)
  | some (PyVal.vDict entries) => buildSectionFields specs entries
  | some _ => Except.error (name ++ ": value is not a mapping")

/-- `PROVIDER_DEFAULTS` from `config_models.py`:
provider to (api_base, model_name). -/
def PROVIDER_DEFAULTS : List (String × String × String) :=
  [("openai", "https://api.openai.com/v1", "gpt-3.5-turbo"),
   ("anthropic", "https://api.anthropic.com", "claude-3-sonnet-20240229"),
   ("gemini", "https://generativelanguage.googleapis.com/v1", "gemini-pro"),
   ("カスタム", "", "")]

/-- `LlmConfig.set_provider_defaults` (`model_validator(mode='before')`):
rewrites the raw input mapping before field validation. -/
def set_provider_defaults (data : PyDict) : PyDict :=
  let providerKey : Option String :=
    match lookupKey data "provider" with
    | some (PyVal.vStr s) => some s
    | some _ => none          -- a non-string is never a key of PROVIDER_DEFAULTS
    | none => some "openai"   -- data.get('provider', 'openai')
  match providerKey with
  | none => data
  | some p =>
    match lookupKey PROVIDER_DEFAULTS p with
    | none => data
    | some dfl =>
      let apiBaseNeedsDefault : Bool :=
        match lookupKey data "api_base" with
        | none => true
        | some (PyVal.vStr s) => s == "" || s == "http://localhost:11434/v1"
        | some _ => false
      let data1 := if apiBaseNeedsDefault then setItem data "api_base" (PyVal.vStr dfl.1) else data
      let modelNameNeedsDefault : Bool :=
        match lookupKey data1 "model_name" with
        | none => true
        | some v => pyFalsy v
      if modelNameNeedsDefault then setItem data1 "model_name" (PyVal.vStr dfl.2) else data1

/-- `LlmConfig.validate_api_base` (`field_validator('api_base')`): replaces
an empty api_base by the provider's default; never raises. -/
def validate_api_base (providerVal : PyVal) (v : String) : String :=
  let providerStr := match providerVal with | PyVal.vStr s => s | _ => ""
  if providerStr ≠ "カスタム" ∧ v = "" then
    match lookupKey PROVIDER_DEFAULTS providerStr with
    | some dfl => if dfl.1 ≠ "" then dfl.1 else v
    | none => v
  else v

/-- `LlmConfig(**d)`: before-validator, field validation, provider enum
check, api_base rewrite.  When the section is absent the default factory
`LlmConfig()` runs with empty data, whose result coincides with the field
defaults (the before-validator injects exactly the "openai" defaults). -/
def buildLlmSection (d : Option PyVal) : Except String PyDict :=
  match d with
  | none => Except.ok (defaultSection llmFields)
  | some (PyVal.vDict entries0) => do
    let entries := set_provider_defaults entries0
    let sec ← buildSectionFields llmFields entries
    if provided entries "provider" then
      match getField sec "provider" with
      | PyVal.vStr s =>
        if s ∈ ["openai", "anthropic", "gemini", "カスタム"] then pure ()
        else Except.error "Provider must be one of the valid llm providers"
      | _ => pure ()
    else pure ()
    let sec :=
      if provided entries "api_base" then
        match getField sec "api_base" with
        | PyVal.vStr s =>
          setItem sec "api_base" (PyVal.vStr (validate_api_base (getField sec "provider") s))
        | _ => sec
      else sec
    Except.ok sec
  | some _ => Except.error "llm: value is not a mapping"

/-- `EmbeddingConfig(**d)` with its provider enum validator. -/
def buildEmbeddingSection (d : Option PyVal) : Except String PyDict :=
  match d with
  | none => Except.ok (defaultSection embeddingFields)
  | some (PyVal.vDict entries) => do
    let sec ← buildSectionFields embeddingFields entries
    if provided entries "provider" then
      match getField sec "provider" with
      | PyVal.vStr s =>
        if s ∈ ["ollama", "openai", "カスタム"] then Except.ok sec
        else Except.error "Provider must be one of the valid embedding providers"
      | _ => Except.ok sec
    else Except.ok sec
  | some _ => Except.error "embedding: value is not a mapping"

/-- `CorsConfig(**d)` with `validate_origins` (non-empty list). -/
def buildCorsSection (d : Option PyVal) : Except String PyDict :=
  match d with
  | none => Except.ok (defaultSection corsFields)
  | some (PyVal.vDict entries) => do
    let sec ← buildSectionFields corsFields entries
    if provided entries "origins" then
      match getField sec "origins" with
      | PyVal.vList l =>
        if l.isEmpty then Except.error "CORS origins cannot be empty" else Except.ok sec
      | _ => Except.ok sec
    else Except.ok sec
  | some _ => Except.error "cors: value is not a mapping"

/-- Substring test (`placeholder in v`). -/
def containsSub (s pat : String) : Bool :=
  (s.splitOn pat).length > 1

/-- `ChatConfig(**d)` with `validate_prompt_template` (required
placeholders). -/
def buildChatSection (d : Option PyVal) : Except String PyDict :=
  match d with
  | none => Except.ok (defaultSection chatFields)
  | some (PyVal.vDict entries) => do
    let sec ← buildSectionFields chatFields entries
    if provided entries "prompt_template" then
      match getField sec "prompt_template" with
      | PyVal.vStr s =>
        if containsSub s "{chat_history}" ∧ containsSub s "{context}" ∧
            containsSub s "{question}" then Except.ok sec
        else Except.error "Prompt template must contain the required placeholders"
      | _ => Except.ok sec
    else Except.ok sec
  | some _ => Except.error "chat: value is not a mapping"

/-- str() of a section field as used in the f-string building the frontend
URL (the field is an int by construction). -/
def pyIntStr : PyVal → String
  | PyVal.vInt n => toString n
  | _ => ""

/-- `ChatbotConfig.validate_backend_port` (`field_validator('backend')`):
the real comparison, given whatever `values.data` holds for `frontend`. -/
def validate_backend_port (backendSec : PyDict) (dataFrontend : Option PyDict) :
    Except String PyDict :=
  match dataFrontend with
  | some fr =>
    if pyEq (getField backendSec "port") (getField fr "port") then
      Except.error "Backend and frontend ports must be different"
    else Except.ok backendSec
  | none => Except.ok backendSec

/-- `ChatbotConfig.validate_cors_with_frontend` (`field_validator('cors')`). -/
def validate_cors_with_frontend (corsSec : PyDict) (dataFrontend : Option PyDict) :
    Except String PyDict :=
  match dataFrontend with
  | none => Except.ok corsSec
  | some fr =>
    let hostStr := match getField fr "host" with | PyVal.vStr s => s | _ => ""
    let frontendUrl := "http://" ++ hostStr ++ ":" ++ pyIntStr (getField fr "port")
    match getField corsSec "origins" with
    | PyVal.vList l =>
      if l.any (fun x => pyEq x (PyVal.vStr frontendUrl)) then Except.ok corsSec
      else Except.error ("CORS origins must include frontend URL: " ++ frontendUrl)
    | _ => Except.ok corsSec

/-- `ChatbotConfig(**data)`: sections are validated in declaration order;
the result is the `model_dump` of the constructed tree.

`validate_backend_port` is declared on `backend`, which pydantic validates
before `frontend`; its guard `'frontend' in values.data` is therefore always
false at that point and the port comparison never runs (the validator is
dead code).  `validate_cors_with_frontend` runs on a provided `cors` with
`frontend` (provided or defaulted) available in `values.data`. -/
def mkChatbotConfig (data : PyDict) : Except String PyDict := do
  let app ← buildPlainSection "app" appFields (lookupKey data "app")
  let backend ← buildPlainSection "backend" backendFields (lookupKey data "backend")
  let backend ←
    if provided data "backend" then validate_backend_port backend none
    else Except.ok backend
  let frontend ← buildPlainSection "frontend" frontendFields (lookupKey data "frontend")
  let cors ← buildCorsSection (lookupKey data "cors")
  let cors ←
    if provided data "cors" then validate_cors_with_frontend cors (some frontend)
    else Except.ok cors
  let qdrant ← buildPlainSection "qdrant" qdrantFields (lookupKey data "qdrant")
  let llm ← buildLlmSection (lookupKey data "llm")
  let embedding ← buildEmbeddingSection (lookupKey data "embedding")
  let upload ← buildPlainSection "upload" uploadFields (lookupKey data "upload")
  let database ← buildPlainSection "database" databaseFields (lookupKey data "database")
  let chat ← buildChatSection (lookupKey data "chat")
  let security ← buildPlainSection "security" securityFields (lookupKey data "security")
  let logging ← buildPlainSection "logging" loggingFields (lookupKey data "logging")
  Except.ok
    [("app", PyVal.vDict app), ("backend", PyVal.vDict backend),
     ("frontend", PyVal.vDict frontend), ("cors", PyVal.vDict cors),
     ("qdrant", PyVal.vDict qdrant), ("llm", PyVal.vDict llm),
     ("embedding", PyVal.vDict embedding), ("upload", PyVal.vDict upload),
     ("database", PyVal.vDict database), ("chat", PyVal.vDict chat),
     ("security", PyVal.vDict security), ("logging", PyVal.vDict logging)]

/-! ## `ConfigManager` (`config_manager.py`)

State is the live tree (`self.config`, untyped because pydantic assignment
is unvalidated), the bounded change history, and the parsed on-disk file
content.  `time.time()` results and the success of each file write are
explicit parameters. -/

/-- `ConfigChange` dataclass.  The Python attribute `section` is a Lean
keyword and is embedded as `sectionName`. -/
structure ConfigChange where
  timestamp : Rat
  sectionName : String
  field : String
  old_value : PyVal
  new_value : PyVal
  user : String
  description : String

/-- `ConfigUpdateResult` dataclass (`validation_result` is never set by the
operations modelled here and is omitted). -/
structure ConfigUpdateResult where
  success : Bool
  message : String
  changes : List ConfigChange := []

/-- `ConfigManager` state. -/
structure ManagerState where
  config : PyDict
  change_history : List ConfigChange
  file : PyDict

/-- `self.max_history_size`. -/
def max_history_size : Nat := 100

/-- `ConfigManager.get_value`: current value, or `None` when the
`(section, field)` pair is unknown. -/
def get_value (t : PyDict) (sectionName field : String) : PyVal :=
  match lookupKey t sectionName with
  | some (PyVal.vDict sec) => (lookupKey sec field).getD PyVal.vNone
  | _ => PyVal.vNone

/-- Whether `hasattr(config, section) and hasattr(section_obj, field)`. -/
def hasPath (t : PyDict) (sectionName field : String) : Bool :=
  match lookupKey t sectionName with
  | some (PyVal.vDict sec) => (lookupKey sec field).isSome
  | _ => false

/-- `setattr(getattr(config, section), field, v)` (pydantic does not
validate assignments, so the value is stored as-is). -/
def setFieldVal (t : PyDict) (sectionName field : String) (v : PyVal) : PyDict :=
  t.map (fun p =>
    if p.1 = sectionName then
      (p.1, match p.2 with
            | PyVal.vDict sec => PyVal.vDict (setItem sec field v)
            | other => other)
    else p)

/-- `int(float)` truncates toward zero. -/
def ratTruncToInt (q : Rat) : Int :=
  if q ≥ 0 then q.floor else -((-q).floor)

/-- The type-coercion block of `set_value`: dispatches on the runtime type
of the current value (`type(getattr(section_obj, field))`).  An error
models the exceptions of `int()`, `float()`, `.strip()` and `json.loads`,
which the enclosing handler turns into a failure result. -/
def coerceForSet (cur : PyVal) (value : PyVal) : Except String PyVal :=
  match cur with
  | .vBool _ =>
    match value with
    | .vStr s => Except.ok (PyVal.vBool (s.toLower ∈ ["true", "1", "yes", "on"]))
    | _ => Except.ok value
  | .vInt _ =>
    match value with
    | .vStr s =>
      match pyInt? s.trim with
      | some n => Except.ok (PyVal.vInt n)
      | none => Except.error "invalid literal for int"
    | .vInt n => Except.ok (PyVal.vInt n)
    | .vFloat q => Except.ok (PyVal.vInt (ratTruncToInt q))
    | .vBool b => Except.ok (PyVal.vInt (if b then 1 else 0))
    | _ => Except.error "int() argument must not be None or a container"
  | .vFloat _ =>
    match value with
    | .vStr s =>
      match pyFloat? s with
      | some q => Except.ok (PyVal.vFloat q)
      | none => Except.error "could not convert string to float"
    | .vFloat q => Except.ok (PyVal.vFloat q)
    | .vInt n => Except.ok (PyVal.vFloat (mkRat n 1))
    | .vBool b => Except.ok (PyVal.vFloat (if b then 1 else 0))
    | _ => Except.error "float() argument must not be None or a container"
  | .vList _ =>
    match value with
    | .vStr s =>
      match jsonStrList? s with
      | some l => Except.ok l
      | none => Except.error "json decode error"
    | _ => Except.ok value
  | .vStr _ =>
    match value with
    | .vStr s => Except.ok (PyVal.vStr s.trim)
    | _ => Except.error "value has no attribute strip"
  | _ => Except.ok value

/-- `ConfigManager._add_to_history`: append, then evict the oldest entries
once the bound is exceeded. -/
def _add_to_history (h : List ConfigChange) (change : ConfigChange) : List ConfigChange :=
  let h' := h ++ [change]
  if h'.length > max_history_size then h'.drop (h'.length - max_history_size) else h'

/-- `ConfigManager.set_value`.  `now` is `time.time()` and `saveOk` the
outcome of the `save_config()` file write (whose returned bool the source
discards). -/
def set_value (st : ManagerState) (sectionName field : String) (value : PyVal)
    (user description : String) (now : Rat) (saveOk : Bool) :
    ManagerState × ConfigUpdateResult :=
  let old_value := get_value st.config sectionName field
  if pyEq old_value value then
    (st, { success := true, message := "No change needed for " ++ sectionName ++ "." ++ field })
  else
    match lookupKey st.config sectionName with
    | some (PyVal.vDict sec) =>
      match lookupKey sec field with
      | some cur =>
        match coerceForSet cur value with
        | Except.error e =>
          (st, { success := false,
                 message := "Error updating " ++ sectionName ++ "." ++ field ++ ": " ++ e })
        | Except.ok v' =>
          let config' := setFieldVal st.config sectionName field v'
          let change : ConfigChange :=
            ⟨now, sectionName, field, old_value, v', user, description⟩
          let history' := _add_to_history st.change_history change
          let file' := if saveOk then config' else st.file
          ({ config := config', change_history := history', file := file' },
           { success := true,
             message := "Successfully updated " ++ sectionName ++ "." ++ field,
             changes := [change] })
      | none =>
        (st, { success := false,
               message := "Invalid config path: " ++ sectionName ++ "." ++ field })
    | _ =>
      (st, { success := false,
             message := "Invalid config path: " ++ sectionName ++ "." ++ field })

/-- `ConfigManager.get_change_history`: filter by section and field, then
keep the most recent `limit` entries (`history[-limit:]`; Python's
`[-0:]` is the whole list). -/
def get_change_history (h : List ConfigChange) (sectionName field : Option String)
    (limit : Option Nat) : List ConfigChange :=
  let h1 := match sectionName with
    | some s => h.filter (fun c => c.sectionName == s)
    | none => h
  let h2 := match field with
    | some f => h1.filter (fun c => c.field == f)
    | none => h1
  match limit with
  | some n => if n = 0 then h2 else h2.drop (h2.length - n)
  | none => h2

/-- `ConfigManager.validate_config`: re-run `ChatbotConfig(**model_dump())`. -/
def validate_config (t : PyDict) : Bool × Option String :=
  match mkChatbotConfig t with
  | Except.ok _ => (true, none)
  | Except.error e => (false, some e)

/-- Sort key order of `sorted(self.change_history, key=lambda x: x.timestamp)`. -/
def tsLe (a b : ConfigChange) : Prop := a.timestamp ≤ b.timestamp

instance : DecidableRel tsLe :=
  fun a b => inferInstanceAs (Decidable (a.timestamp ≤ b.timestamp))

/-- Model of Python's stable `sorted(history, key=lambda x: x.timestamp)`
(insertion sort is stable). -/
def pySortedByTimestamp (h : List ConfigChange) : List ConfigChange :=
  h.insertionSort tsLe

/-- One replay step of the rollback loop: guarded `setattr` of the change's
`new_value`. -/
def applyChange (t : PyDict) (c : ConfigChange) : PyDict :=
  if hasPath t c.sectionName c.field then setFieldVal t c.sectionName c.field c.new_value
  else t

/-- The index-finding loop of `rollback_to_timestamp`: walk the sorted
history, remember the index while `timestamp <= t`, break at the first
later change. -/
def rollbackIndexGo : List ConfigChange → Rat → Int → Int → Int
  | [], _, _, acc => acc
  | c :: cs, t, i, acc =>
    if c.timestamp ≤ t then rollbackIndexGo cs t (i + 1) i else acc

def rollbackIndex (l : List ConfigChange) (t : Rat) : Int :=
  rollbackIndexGo l t 0 (-1)

/-- The reconstruction step of `rollback_to_timestamp`: sort the history by
timestamp, find the last index at or before `timestamp`, and replay that
prefix onto fresh `ChatbotConfig()` defaults (`target_index == -1` means
no change qualifies and the defaults are returned as-is). -/
def rollbackReconstruct (history : List ConfigChange) (timestamp : Rat) : PyDict :=
  let sorted_history := pySortedByTimestamp history
  let target_index := rollbackIndex sorted_history timestamp
  if target_index = -1 then defaultTree
  else (sorted_history.take (target_index + 1).toNat).foldl applyChange defaultTree

/-- `ConfigManager.rollback_to_timestamp`: rebuild from `ChatbotConfig()`
defaults by replaying the sorted history prefix with `timestamp <= t`,
install the result, save (bool discarded), and return a single synthetic
change; the manager's change history is not touched. -/
def rollback_to_timestamp (st : ManagerState) (timestamp : Rat) (saveOk : Bool) :
    ManagerState × ConfigUpdateResult :=
  let target_config := rollbackReconstruct st.change_history timestamp
  let old_config := st.config
  let file' := if saveOk then target_config else st.file
  let change : ConfigChange :=
    ⟨timestamp, "config", "rollback", PyVal.vDict old_config, PyVal.vDict target_config,
     "system", "Rolled back to timestamp " ++ toString timestamp⟩
  ({ config := target_config, change_history := st.change_history, file := file' },
   { success := true,
     message := "Successfully rolled back to timestamp " ++ toString timestamp,
     changes := [change] })

/-- `ConfigManager.import_config`, after file reading: `parsed` is the
mapping produced by `toml.load`/`json.load`, or `none` when the file is
missing, the format unsupported, or parsing raised.  `mkChatbotConfig`
failures are the `ChatbotConfig(**...)` validation errors caught by the
handler.  On a failed save the tree stays mutated but the result reports
failure. -/
def import_config (st : ManagerState) (parsed : Option PyDict) (merge : Bool)
    (saveOk : Bool) : ManagerState × ConfigUpdateResult :=
  match parsed with
  | none =>
    (st, { success := false, message := "Error importing config: could not read file" })
  | some config_data =>
    match mkChatbotConfig config_data with
    | Except.error e =>
      (st, { success := false, message := "Error importing config: " ++ e })
    | Except.ok imported_dict =>
      let applyTree (newTree : PyDict) : ManagerState × ConfigUpdateResult :=
        let st' := { st with config := newTree, file := if saveOk then newTree else st.file }
        if saveOk then
          (st', { success := true, message := "Successfully imported config" })
        else
          (st', { success := false, message := "Failed to save imported config" })
      if merge then
        let merged_dict := _deep_merge st.config imported_dict
        match mkChatbotConfig merged_dict with
        | Except.error e =>
          (st, { success := false, message := "Error importing config: " ++ e })
        | Except.ok newTree => applyTree newTree
      else
        applyTree imported_dict

/-! ## `ConfigUpdater` (`config_watcher.py`) -/

/-- `ConfigUpdater` state: the wrapped manager, the backup taken by the last
cycle, and the updater's own (separate) change history. -/
structure UpdaterState where
  manager : ManagerState
  backup_config : Option PyDict
  change_history : List ConfigChange

/-- `ConfigManager.reload_config` as triggered by the updater: re-parse the
file and validate; any failure (including validation) falls back to
schema defaults.  No environment-variable overrides are set in this model,
so `_load_from_env` is the identity. -/
def reload_config (st : ManagerState) : PyDict :=
  match mkChatbotConfig st.file with
  | Except.ok t => t
  | Except.error _ => defaultTree

/-- `ConfigUpdater._detect_changes`: full scan over the backup tree's
sections and fields, one `"system"` change per differing value.  (Both
trees always share the schema shape, so the `getattr` calls on the new
tree are total.) -/
def _detect_changes (old_config new_config : PyDict) (now : Rat) : List ConfigChange :=
  (old_config.map (fun p =>
    match p.2 with
    | PyVal.vDict oldSec =>
      oldSec.filterMap (fun q =>
        let new_value := get_value new_config p.1 q.1
        if pyEq q.2 new_value then none
        else some ⟨now, p.1, q.1, q.2, new_value, "system", "Config file changed"⟩)
    | _ => [])).flatten

/-- `ConfigUpdater._on_config_file_changed` (one reconciliation cycle,
already under the lock and past the debounce).  `diffFails` injects an
exception in the diff/append/notify steps (the reload itself catches its
own errors and cannot raise); the handler then calls
`_restore_from_backup`, which persists the backup to the file via
`save_config(backup)` — the live tree is left holding the reloaded
content.  `restoreSaveOk` is the outcome of that restore write.  No
exception propagates in either branch. -/
def _on_config_file_changed (st : UpdaterState) (diffFails : Bool) (restoreSaveOk : Bool)
    (now : Rat) : UpdaterState :=
  let backup_config := st.manager.config
  let new_config := reload_config st.manager
  let mgr := { st.manager with config := new_config }
  if diffFails then
    { manager := { mgr with file := if restoreSaveOk then backup_config else mgr.file },
      backup_config := some backup_config,
      change_history := st.change_history }
  else
    let changes := _detect_changes backup_config new_config now
    { manager := mgr,
      backup_config := some backup_config,
      change_history := changes.foldl _add_to_history st.change_history }

/-! ## Concrete states used by several theorems -/

/-- A freshly constructed manager: default tree, empty history, defaults on
disk (scenario A of the spec). -/
def freshManager : ManagerState := ⟨defaultTree, [], defaultTree⟩

/-- The default tree with `qdrant.host` set to `"remote"`. -/
def remoteHostTree : PyDict := setFieldVal defaultTree "qdrant" "host" (PyVal.vStr "remote")

/-- A manager whose live tree has `qdrant.host = "remote"` while the file
still holds the defaults. -/
def remoteHostManager : ManagerState := ⟨remoteHostTree, [], defaultTree⟩

/-! ## Claims -/

/-- C2 (counterexample).  `set_value` compares the raw value against the
current value *before* coercion, so repeating the textual value `"1.5"` on
the float field `llm.temperature` does not short-circuit: the second call
coerces again, stores the same float, and appends a second `ConfigChange`
(total history length 2), returning "Successfully updated", not the
"no change needed" message — refuting the claim that two identical calls
produce exactly one `ConfigChange`. -/
theorem C2_counterexample :
    (((set_value (set_value freshManager "llm" "temperature" (PyVal.vStr "1.5")
        "api" "" 1 true).1 "llm" "temperature" (PyVal.vStr "1.5")
        "api" "" 2 true).1).change_history.length = 2) ∧
    (((set_value (set_value freshManager "llm" "temperature" (PyVal.vStr "1.5")
        "api" "" 1 true).1 "llm" "temperature" (PyVal.vStr "1.5")
        "api" "" 2 true).2).changes.length = 1) ∧
    (((set_value (set_value freshManager "llm" "temperature" (PyVal.vStr "1.5")
        "api" "" 1 true).1 "llm" "temperature" (PyVal.vStr "1.5")
        "api" "" 2 true).2).message = "Successfully updated llm.temperature") := by
  refine ⟨?_, ?_, ?_⟩ <;> with_unfolding_all rfl

/-- C2 (amended).  `set_value` is idempotent exactly when the repeated raw
value is Python-equal to the current value (the comparison happens before
coercion): in that case the state (tree, history, file) is untouched and
the call returns success with the "No change needed" message and no
`ConfigChange`.  A repeated textual value that merely coerces to the
current value instead appends a duplicate change (see the
counterexample). -/
theorem C2_set_value_idempotent_on_equal_raw_value
    (st : ManagerState) (sectionName field : String) (v : PyVal)
    (user descr : String) (now : Rat) (saveOk : Bool)
    (h : pyEq (get_value st.config sectionName field) v = true) :
    (set_value st sectionName field v user descr now saveOk).1 = st ∧
    (set_value st sectionName field v user descr now saveOk).2.success = true ∧
    (set_value st sectionName field v user descr now saveOk).2.message =
      "No change needed for " ++ sectionName ++ "." ++ field ∧
    (set_value st sectionName field v user descr now saveOk).2.changes = [] := by
  simp [set_value, h]

/-- C2 (witness): the amended theorem applied to a fresh manager and the
already-typed current value `0.7` of `llm.temperature`. -/
theorem C2_witness :
    pyEq (get_value freshManager.config "llm" "temperature") (PyVal.vFloat 0.7) = true ∧
    (set_value freshManager "llm" "temperature" (PyVal.vFloat 0.7) "api" "" 1 true).1 =
      freshManager ∧
    (set_value freshManager "llm" "temperature" (PyVal.vFloat 0.7) "api" "" 1 true).2.success =
      true := by
  have h : pyEq (get_value freshManager.config "llm" "temperature") (PyVal.vFloat 0.7) = true := by
    with_unfolding_all rfl
  refine ⟨h, ?_, ?_⟩
  · exact (C2_set_value_idempotent_on_equal_raw_value freshManager "llm" "temperature"
      (PyVal.vFloat 0.7) "api" "" 1 true h).1
  · exact (C2_set_value_idempotent_on_equal_raw_value freshManager "llm" "temperature"
      (PyVal.vFloat 0.7) "api" "" 1 true h).2.1

/-- C3 (code bug).  `set_value("llm","temperature","1.5")` stores the float
`1.5` as the claim says, but the follow-up `set_value("llm","temperature",
"5.0")` does *not* fail: pydantic assignment is unvalidated
(`validate_assignment` is off), so the coerced `5.0` is stored and the call
reports success, leaving the live value at `5.0` — even though the schema
declares `le=2.0` and the manager's own `validate_config` (last conjunct)
rejects the resulting tree. -/
theorem C3_constraint_not_enforced_on_set_value :
    (get_value (set_value freshManager "llm" "temperature" (PyVal.vStr "1.5")
        "api" "" 1 true).1.config "llm" "temperature" = PyVal.vFloat 1.5) ∧
    ((set_value (set_value freshManager "llm" "temperature" (PyVal.vStr "1.5")
        "api" "" 1 true).1 "llm" "temperature" (PyVal.vStr "5.0")
        "api" "" 2 true).2.success = true) ∧
    (get_value (set_value (set_value freshManager "llm" "temperature" (PyVal.vStr "1.5")
        "api" "" 1 true).1 "llm" "temperature" (PyVal.vStr "5.0")
        "api" "" 2 true).1.config "llm" "temperature" = PyVal.vFloat 5) ∧
    ((validate_config (set_value (set_value freshManager "llm" "temperature"
        (PyVal.vStr "1.5") "api" "" 1 true).1 "llm" "temperature" (PyVal.vStr "5.0")
        "api" "" 2 true).1.config).1 = false) := by
  refine ⟨?_, ?_, ?_, ?_⟩ <;> with_unfolding_all rfl

/-- C4 (code bug).  `set_value` discards the boolean returned by
`save_config()`: with the file write failing (`saveOk = false`) a changing
call still reports success (for any save outcome, first conjunct), the
in-memory tree holds the new value while the file keeps the old one —
the failure is never reported, refuting the claim that the result reports
failure when persistence fails. -/
theorem C4_save_failure_not_reported :
    (∀ saveOk : Bool,
      (set_value freshManager "llm" "temperature" (PyVal.vStr "1.5")
        "api" "" 1 saveOk).2.success = true) ∧
    ((set_value freshManager "llm" "temperature" (PyVal.vStr "1.5")
        "api" "" 1 false).2.changes.length = 1) ∧
    (get_value (set_value freshManager "llm" "temperature" (PyVal.vStr "1.5")
        "api" "" 1 false).1.config "llm" "temperature" = PyVal.vFloat 1.5) ∧
    (get_value (set_value freshManager "llm" "temperature" (PyVal.vStr "1.5")
        "api" "" 1 false).1.file "llm" "temperature" = PyVal.vFloat 0.7) := by
  refine ⟨?_, ?_, ?_, ?_⟩
  · intro saveOk
    cases saveOk <;> with_unfolding_all rfl
  all_goals with_unfolding_all rfl

/-- C10.  `rollback_to_timestamp` never touches the manager's change
history (the synthetic rollback change exists only in the returned result,
whose `changes` list has exactly one entry), the history observable via
`get_change_history` is unchanged, and the call reports success for every
save outcome — in particular when persisting the rolled-back tree fails. -/
theorem C10_rollback_leaves_history_untouched (st : ManagerState) (t : Rat) (saveOk : Bool) :
    (rollback_to_timestamp st t saveOk).1.change_history = st.change_history ∧
    (rollback_to_timestamp st t saveOk).2.success = true ∧
    (rollback_to_timestamp st t saveOk).2.changes.length = 1 ∧
    get_change_history (rollback_to_timestamp st t saveOk).1.change_history none none none =
      get_change_history st.change_history none none none :=
  ⟨rfl, rfl, rfl, rfl⟩

/-- A file content that fails schema validation (`backend.port = 0` is
below the declared minimum), so a reload falls back to defaults. -/
def invalidFileContent : PyDict := [("backend", PyVal.vDict [("port", PyVal.vInt 0)])]

/-- An updater whose live tree has `qdrant.host = "remote"` while the file
holds externally edited content that fails validation. -/
def staleUpdater : UpdaterState := ⟨⟨remoteHostTree, [], invalidFileContent⟩, none, []⟩

/-- C5 (counterexample).  A reconciliation cycle whose diff step fails does
*not* leave the live tree equal to its pre-cycle backup: starting from a
live tree with `qdrant.host = "remote"` and a file whose content fails
validation, the reload replaces the live tree by schema defaults
(`host = "localhost"`); the injected diff failure then triggers
`_restore_from_backup`, which only persists the backup to the file — the
live tree keeps the reloaded content, different from the backup. -/
theorem C5_counterexample :
    get_value staleUpdater.manager.config "qdrant" "host" = PyVal.vStr "remote" ∧
    (_on_config_file_changed staleUpdater true true 5).backup_config =
      some staleUpdater.manager.config ∧
    get_value (_on_config_file_changed staleUpdater true true 5).manager.config
      "qdrant" "host" = PyVal.vStr "localhost" ∧
    get_value (_on_config_file_changed staleUpdater true true 5).manager.file
      "qdrant" "host" = PyVal.vStr "remote" ∧
    PyVal.vStr "localhost" ≠ PyVal.vStr "remote" := by
  refine ⟨?_, rfl, ?_, ?_, by simp⟩
  · with_unfolding_all rfl
  · with_unfolding_all rfl
  · with_unfolding_all rfl

/-- C5 (amended).  When a reconciliation cycle fails at the diff step, the
handler catches the exception (the embedding is a total function, so
nothing propagates) and `_restore_from_backup` persists the pre-cycle
backup to the Store: the file again holds the backup (when the restore
write succeeds), while the live in-memory tree keeps the reloaded content;
the updater's change history is untouched. -/
theorem C5_failed_cycle_restores_backup_to_store (st : UpdaterState)
    (restoreSaveOk : Bool) (now : Rat) :
    (_on_config_file_changed st true restoreSaveOk now).manager.config =
      reload_config st.manager ∧
    (_on_config_file_changed st true restoreSaveOk now).manager.file =
      (if restoreSaveOk then st.manager.config else st.manager.file) ∧
    (_on_config_file_changed st true restoreSaveOk now).change_history = st.change_history ∧
    (_on_config_file_changed st true restoreSaveOk now).backup_config =
      some st.manager.config :=
  ⟨rfl, rfl, rfl, rfl⟩

/-- Construction data in which `frontend.port` equals the default
`backend.port` (8000) and `cors.origins` contains the matching frontend
URL. -/
def equalPortsData : PyDict :=
  [("frontend", PyVal.vDict [("port", PyVal.vInt 8000)]),
   ("cors", PyVal.vDict [("origins", PyVal.vList [PyVal.vStr "http://localhost:8000"])])]

/-- Construction data whose `cors.origins` omits the frontend URL. -/
def corsBadData : PyDict :=
  [("cors", PyVal.vDict [("origins", PyVal.vList [PyVal.vStr "http://example.com"])])]

/-- The tree `ChatbotConfig(**equalPortsData)` constructs: defaults except
for the provided frontend port and cors origins. -/
def equalPortsTree : PyDict :=
  setFieldVal (setFieldVal defaultTree "frontend" "port" (PyVal.vInt 8000))
    "cors" "origins" (PyVal.vList [PyVal.vStr "http://localhost:8000"])

lemma mk_equalPortsData_eval : mkChatbotConfig equalPortsData = Except.ok equalPortsTree := by
  with_unfolding_all rfl

/-- C9 (code bug).  The cors half of the claim holds: a tree whose
`cors.origins` omits the computed frontend URL fails validation (second
conjunct).  The backend-port half fails: `validate_backend_port` is
declared on the `backend` field, which pydantic validates *before*
`frontend`, so its guard `'frontend' in values.data` is always false and a
tree with `backend.port == frontend.port` (both 8000) constructs
successfully (first conjunct) — even though the validator's own comparison
(third conjunct, given the frontend data it never receives) would reject
exactly this tree. -/
theorem C9_backend_port_validator_never_fires :
    (mkChatbotConfig equalPortsData).map
      (fun t => (get_value t "backend" "port", get_value t "frontend" "port")) =
      Except.ok (PyVal.vInt 8000, PyVal.vInt 8000) ∧
    mkChatbotConfig corsBadData =
      Except.error "CORS origins must include frontend URL: http://localhost:3000" ∧
    validate_backend_port (defaultSection backendFields)
      (some [("host", PyVal.vStr "localhost"), ("port", PyVal.vInt 8000)]) =
      Except.error "Backend and frontend ports must be different" := by
  refine ⟨?_, ?_, ?_⟩
  · simp only [mk_equalPortsData_eval, Except.map]
    with_unfolding_all rfl
  · with_unfolding_all rfl
  · with_unfolding_all rfl

/-- The parsed content of the import file of spec scenario C:
`{"qdrant": {"port": 7000}}`. -/
def qdrantImportData : PyDict := [("qdrant", PyVal.vDict [("port", PyVal.vInt 7000)])]

/-- The full tree that `ChatbotConfig(**qdrantImportData)` produces: every
missing section and field completed with its schema default. -/
def qdrantImportedTree : PyDict := setFieldVal defaultTree "qdrant" "port" (PyVal.vInt 7000)

lemma mk_qdrantImportData_eval :
    mkChatbotConfig qdrantImportData = Except.ok qdrantImportedTree := by
  with_unfolding_all rfl

lemma merge_default_imported_eval :
    _deep_merge defaultTree qdrantImportedTree = qdrantImportedTree := by
  with_unfolding_all rfl

lemma merge_remote_imported_eval :
    _deep_merge remoteHostTree qdrantImportedTree = qdrantImportedTree := by
  with_unfolding_all rfl

lemma mk_qdrantImportedTree_eval :
    mkChatbotConfig qdrantImportedTree = Except.ok qdrantImportedTree := by
  with_unfolding_all rfl

/-- C6 (counterexample).  With `merge=true`, a field absent from the
imported file does *not* keep its current value: onto a tree whose
`qdrant.host` is `"remote"`, importing `{"qdrant": {"port": 7000}}`
succeeds but resets `qdrant.host` to the schema default `"localhost"`,
because `ChatbotConfig(**config_data)` first completes the parsed file
with defaults and the completed tree then wins on every field of the
deep merge. -/
theorem C6_counterexample :
    get_value remoteHostManager.config "qdrant" "host" = PyVal.vStr "remote" ∧
    (import_config remoteHostManager (some qdrantImportData) true true).2.success = true ∧
    get_value (import_config remoteHostManager (some qdrantImportData) true true).1.config
      "qdrant" "host" = PyVal.vStr "localhost" ∧
    PyVal.vStr "localhost" ≠ PyVal.vStr "remote" := by
  have h2 : (import_config remoteHostManager (some qdrantImportData) true true).2.success =
      true := by
    simp only [import_config, remoteHostManager, mk_qdrantImportData_eval,
      merge_remote_imported_eval, mk_qdrantImportedTree_eval]
    with_unfolding_all rfl
  have h3 : get_value
      (import_config remoteHostManager (some qdrantImportData) true true).1.config
      "qdrant" "host" = PyVal.vStr "localhost" := by
    simp only [import_config, remoteHostManager, mk_qdrantImportData_eval,
      merge_remote_imported_eval, mk_qdrantImportedTree_eval]
    with_unfolding_all rfl
  exact ⟨by with_unfolding_all rfl, h2, h3, by simp⟩

/-- C6 (amended).  `import_config` with `merge=true` first validates the
parsed file into a complete tree (missing sections and fields filled with
schema defaults) and then deep-merges that complete tree into the current
one, so every schema field takes the imported-or-default value and fields
absent from the file are reset to their schema defaults.  The claim's
scenario holds as stated — `qdrant.port` becomes `7000` and `qdrant.host`
stays `"localhost"` — only because the schema default coincides with the
current value (conjuncts 1-4).  Parse failure (conjunct 5) and validation
failure (conjunct 6) leave the live state untouched and return a failure
result. -/
theorem C6_import_merge_resets_absent_fields_to_defaults :
    ((import_config freshManager (some qdrantImportData) true true).2.success = true) ∧
    (get_value (import_config freshManager (some qdrantImportData) true true).1.config
      "qdrant" "port" = PyVal.vInt 7000) ∧
    (get_value (import_config freshManager (some qdrantImportData) true true).1.config
      "qdrant" "host" = PyVal.vStr "localhost") ∧
    (get_value (import_config remoteHostManager (some qdrantImportData) true true).1.config
      "qdrant" "host" = get_value defaultTree "qdrant" "host") ∧
    (∀ (st : ManagerState) (merge saveOk : Bool),
      (import_config st none merge saveOk).1 = st ∧
      (import_config st none merge saveOk).2.success = false) ∧
    (∀ (st : ManagerState) (d : PyDict) (merge saveOk : Bool) (e : String),
      mkChatbotConfig d = Except.error e →
      (import_config st (some d) merge saveOk).1 = st ∧
      (import_config st (some d) merge saveOk).2.success = false) := by
  refine ⟨?_, ?_, ?_, ?_, fun st merge saveOk => ⟨rfl, rfl⟩, fun st d merge saveOk e h => ?_⟩
  · simp only [import_config, freshManager, mk_qdrantImportData_eval,
      merge_default_imported_eval, mk_qdrantImportedTree_eval]
    with_unfolding_all rfl
  · simp only [import_config, freshManager, mk_qdrantImportData_eval,
      merge_default_imported_eval, mk_qdrantImportedTree_eval]
    with_unfolding_all rfl
  · simp only [import_config, freshManager, mk_qdrantImportData_eval,
      merge_default_imported_eval, mk_qdrantImportedTree_eval]
    with_unfolding_all rfl
  · simp only [import_config, remoteHostManager, mk_qdrantImportData_eval,
      merge_remote_imported_eval, mk_qdrantImportedTree_eval]
    with_unfolding_all rfl
  · simp [import_config, h]

/-- C6 (witness): the validation-failure conjunct of the amended theorem
applied to data whose `backend.port` violates its declared minimum. -/
theorem C6_witness :
    mkChatbotConfig invalidFileContent =
      Except.error "value violates a declared constraint" ∧
    (import_config freshManager (some invalidFileContent) true true).1 = freshManager ∧
    (import_config freshManager (some invalidFileContent) true true).2.success = false := by
  have h : mkChatbotConfig invalidFileContent =
      Except.error "value violates a declared constraint" := by
    with_unfolding_all rfl
  exact ⟨h,
    (C6_import_merge_resets_absent_fields_to_defaults.2.2.2.2.2 freshManager
      invalidFileContent true true _ h).1,
    (C6_import_merge_resets_absent_fields_to_defaults.2.2.2.2.2 freshManager
      invalidFileContent true true _ h).2⟩

/-! ## Deep-merge characterization (C7) -/

lemma lookupKey_cons_self {α : Type} (a : String) (b : α) (rest : List (String × α)) :
    lookupKey ((a, b) :: rest) a = some b := by
  simp [lookupKey]

lemma lookupKey_cons_ne {α : Type} (a k : String) (b : α) (rest : List (String × α))
    (h : a ≠ k) : lookupKey ((a, b) :: rest) k = lookupKey rest k := by
  simp [lookupKey, h]

lemma lookupKey_map_overwrite (d : PyDict) (k : String) (v : PyVal) :
    lookupKey (d.map (fun p => if p.1 = k then (p.1, v) else p)) k =
      (lookupKey d k).map (fun _ => v) := by
  induction d with
  | nil => rfl
  | cons hd rest ih =>
    obtain ⟨a, b⟩ := hd
    simp only [List.map_cons]
    by_cases hak : a = k
    · rw [if_pos hak, hak, lookupKey_cons_self, lookupKey_cons_self]
      rfl
    · rw [if_neg hak, lookupKey_cons_ne _ _ _ _ hak, lookupKey_cons_ne _ _ _ _ hak, ih]

lemma lookupKey_map_overwrite_ne (d : PyDict) (k k' : String) (v : PyVal) (hk : k' ≠ k) :
    lookupKey (d.map (fun p => if p.1 = k then (p.1, v) else p)) k' = lookupKey d k' := by
  induction d with
  | nil => rfl
  | cons hd rest ih =>
    obtain ⟨a, b⟩ := hd
    simp only [List.map_cons]
    by_cases hak : a = k
    · rw [if_pos hak]
      by_cases hak' : a = k'
      · exact absurd (hak'.symm.trans hak) hk
      · rw [lookupKey_cons_ne _ _ _ _ hak', lookupKey_cons_ne _ _ _ _ hak', ih]
    · rw [if_neg hak]
      by_cases hak' : a = k'
      · rw [hak', lookupKey_cons_self, lookupKey_cons_self]
      · rw [lookupKey_cons_ne _ _ _ _ hak', lookupKey_cons_ne _ _ _ _ hak', ih]

lemma lookupKey_none_of_any_false (d : PyDict) (k : String)
    (h : d.any (fun p => decide (p.1 = k)) = false) : lookupKey d k = none := by
  induction d with
  | nil => rfl
  | cons hd rest ih =>
    obtain ⟨a, b⟩ := hd
    simp only [List.any_cons, Bool.or_eq_false_iff, decide_eq_false_iff_not] at h
    rw [lookupKey_cons_ne _ _ _ _ h.1]
    exact ih h.2

lemma lookupKey_isSome_of_any_true (d : PyDict) (k : String)
    (h : d.any (fun p => decide (p.1 = k)) = true) : (lookupKey d k).isSome = true := by
  induction d with
  | nil => simp at h
  | cons hd rest ih =>
    obtain ⟨a, b⟩ := hd
    simp only [List.any_cons, Bool.or_eq_true, decide_eq_true_eq] at h
    by_cases hak : a = k
    · rw [hak, lookupKey_cons_self]
      rfl
    · rcases h with h | h
      · exact absurd h hak
      · rw [lookupKey_cons_ne _ _ _ _ hak]
        exact ih h

lemma lookupKey_append_singleton (d : PyDict) (k : String) (v : PyVal)
    (h : lookupKey d k = none) : lookupKey (d ++ [(k, v)]) k = some v := by
  induction d with
  | nil => simp [lookupKey]
  | cons hd rest ih =>
    obtain ⟨a, b⟩ := hd
    by_cases hak : a = k
    · rw [hak, lookupKey_cons_self] at h
      exact Option.noConfusion h
    · rw [lookupKey_cons_ne _ _ _ _ hak] at h
      rw [List.cons_append, lookupKey_cons_ne _ _ _ _ hak]
      exact ih h

lemma lookupKey_append_singleton_ne (d : PyDict) (k k' : String) (v : PyVal) (hk : k' ≠ k) :
    lookupKey (d ++ [(k, v)]) k' = lookupKey d k' := by
  induction d with
  | nil => simp [lookupKey, Ne.symm hk]
  | cons hd rest ih =>
    obtain ⟨a, b⟩ := hd
    by_cases hak' : a = k'
    · rw [List.cons_append, hak', lookupKey_cons_self, lookupKey_cons_self]
    · rw [List.cons_append, lookupKey_cons_ne _ _ _ _ hak', lookupKey_cons_ne _ _ _ _ hak']
      exact ih

lemma lookupKey_setItem_self (d : PyDict) (k : String) (v : PyVal) :
    lookupKey (setItem d k v) k = some v := by
  unfold setItem
  by_cases h : d.any (fun p => decide (p.1 = k)) = true
  · rw [if_pos h, lookupKey_map_overwrite]
    have := lookupKey_isSome_of_any_true d k h
    cases hd : lookupKey d k with
    | none => rw [hd] at this; cases this
    | some w => rfl
  · rw [if_neg h]
    exact lookupKey_append_singleton d k v
      (lookupKey_none_of_any_false d k (Bool.eq_false_iff.mpr h))

lemma lookupKey_setItem_ne (d : PyDict) (k k' : String) (v : PyVal) (hk : k' ≠ k) :
    lookupKey (setItem d k v) k' = lookupKey d k' := by
  unfold setItem
  by_cases h : d.any (fun p => decide (p.1 = k)) = true
  · rw [if_pos h]
    exact lookupKey_map_overwrite_ne d k k' v hk
  · rw [if_neg h]
    exact lookupKey_append_singleton_ne d k k' v hk

lemma lookupKey_none_of_not_mem_keys (d : PyDict) (k : String)
    (h : k ∉ d.map Prod.fst) : lookupKey d k = none := by
  induction d with
  | nil => rfl
  | cons hd rest ih =>
    obtain ⟨a, b⟩ := hd
    simp only [List.map_cons, List.mem_cons, not_or] at h
    rw [lookupKey_cons_ne _ _ _ _ (Ne.symm h.1)]
    exact ih h.2

/-- The behaviour the spec ascribes to the deep-merge primitive, as a
function of one key: a key held by both sides as a nested mapping is merged
recursively, any other key of the source is overwritten by the source
value, and keys absent from the source keep the target's value. -/
def deepMergeSpec (target source : PyDict) (k : String) : Option PyVal :=
  match lookupKey source k, lookupKey target k with
  | some (PyVal.vDict s), some (PyVal.vDict t) => some (PyVal.vDict (_deep_merge t s))
  | some v, _ => some v
  | none, _ => lookupKey target k

lemma deepMergeGo_lookup : ∀ (source target : PyDict) (k : String),
    (source.map Prod.fst).Nodup →
    lookupKey (deepMergeGo target source) k = deepMergeSpec target source k := by
  intro source
  induction source with
  | nil =>
    intro target k _
    simp [deepMergeGo, deepMergeSpec, lookupKey]
  | cons hd rest ih =>
    obtain ⟨k', v'⟩ := hd
    intro target k hnd
    simp only [List.map_cons, List.nodup_cons] at hnd
    obtain ⟨hk'mem, hndrest⟩ := hnd
    rw [show deepMergeGo target ((k', v') :: rest) =
        deepMergeGo (setItem target k'
          (match lookupKey target k' with
           | some tv => deepMergeVal tv v'
           | none => v')) rest from rfl]
    rw [ih _ k hndrest]
    by_cases hk : k = k'
    · subst hk
      have hrest : lookupKey rest k = none := lookupKey_none_of_not_mem_keys rest k hk'mem
      unfold deepMergeSpec
      rw [hrest, lookupKey_setItem_self]
      rw [show lookupKey ((k, v') :: rest) k = some v' by simp [lookupKey]]
      cases hv : lookupKey target k with
      | none => cases v' <;> simp [deepMergeVal]
      | some tv => cases tv <;> cases v' <;> simp [deepMergeVal, _deep_merge]
    · unfold deepMergeSpec
      rw [lookupKey_setItem_ne _ _ _ _ hk]
      rw [show lookupKey ((k', v') :: rest) k = lookupKey rest k from
        lookupKey_cons_ne _ _ _ _ (Ne.symm hk)]

/-- C7.  The deep-merge primitive satisfies the claimed key-wise behaviour
(for dictionaries, whose key lists are duplicate-free): each key of the
source is merged recursively when both sides hold a nested mapping there
and is overwritten by the source value otherwise, and keys absent from the
source keep the target's value (first conjunct).  Merging
`{a: {x:1, y:2}}` into `{a: {x:9, z:3}}` yields a mapping at `a` with
`x = 1`, `y = 2`, `z = 3` and exactly the keys `{x, y, z}` (remaining
conjuncts).  The Python function deep-copies its inputs, so it mutates
neither; in this functional embedding purity is inherent. -/
theorem C7_deep_merge_characterization :
    (∀ (target source : PyDict) (k : String),
      (source.map Prod.fst).Nodup →
      lookupKey (_deep_merge target source) k = deepMergeSpec target source k) ∧
    _deep_merge [("a", PyVal.vDict [("x", PyVal.vInt 9), ("z", PyVal.vInt 3)])]
        [("a", PyVal.vDict [("x", PyVal.vInt 1), ("y", PyVal.vInt 2)])] =
      [("a", PyVal.vDict [("x", PyVal.vInt 1), ("z", PyVal.vInt 3), ("y", PyVal.vInt 2)])] ∧
    lookupKey [("x", PyVal.vInt 1), ("z", PyVal.vInt 3), ("y", PyVal.vInt 2)] "x" =
      some (PyVal.vInt 1) ∧
    lookupKey [("x", PyVal.vInt 1), ("z", PyVal.vInt 3), ("y", PyVal.vInt 2)] "y" =
      some (PyVal.vInt 2) ∧
    lookupKey [("x", PyVal.vInt 1), ("z", PyVal.vInt 3), ("y", PyVal.vInt 2)] "z" =
      some (PyVal.vInt 3) ∧
    ([("x", PyVal.vInt 1), ("z", PyVal.vInt 3), ("y", PyVal.vInt 2)].map Prod.fst).Perm
      ["x", "y", "z"] := by
  refine ⟨fun target source k h => deepMergeGo_lookup source target k h, ?_, ?_, ?_, ?_, ?_⟩
  · with_unfolding_all rfl
  · with_unfolding_all rfl
  · with_unfolding_all rfl
  · with_unfolding_all rfl
  · decide

/-- C7 (witness): the characterization applied to the example mappings at
key `a` (their key lists are duplicate-free). -/
theorem C7_witness :
    (([("a", PyVal.vDict [("x", PyVal.vInt 1), ("y", PyVal.vInt 2)])].map
        Prod.fst).Nodup : Prop) ∧
    lookupKey (_deep_merge [("a", PyVal.vDict [("x", PyVal.vInt 9), ("z", PyVal.vInt 3)])]
        [("a", PyVal.vDict [("x", PyVal.vInt 1), ("y", PyVal.vInt 2)])]) "a" =
      deepMergeSpec [("a", PyVal.vDict [("x", PyVal.vInt 9), ("z", PyVal.vInt 3)])]
        [("a", PyVal.vDict [("x", PyVal.vInt 1), ("y", PyVal.vInt 2)])] "a" := by
  have hnd : ([("a", PyVal.vDict [("x", PyVal.vInt 1), ("y", PyVal.vInt 2)])].map
      Prod.fst).Nodup := by decide
  exact ⟨hnd, C7_deep_merge_characterization.1 _ _ "a" hnd⟩

/-! ## Bounded history (C8) -/

/-- C8.  The change-history log is a bounded FIFO with capacity
`max_history_size = 100`: an append keeps the length at or below the bound
whenever it already was (first conjunct); exactly, the new length is
`min (old + 1) 100` (second conjunct); and a sequence of appends starting
from the empty log retains precisely the most recent 100 entries in
insertion order — the oldest are silently evicted (third conjunct, where
`cs.drop (cs.length - 100)` is all of `cs` while the bound is not yet
exceeded). -/
theorem C8_history_bounded_fifo :
    (∀ (h : List ConfigChange) (c : ConfigChange),
      h.length ≤ max_history_size →
      (_add_to_history h c).length ≤ max_history_size) ∧
    (∀ (h : List ConfigChange) (c : ConfigChange),
      (_add_to_history h c).length = min (h.length + 1) max_history_size) ∧
    (∀ cs : List ConfigChange,
      List.foldl _add_to_history [] cs = cs.drop (cs.length - max_history_size)) := by
  have hlen : ∀ (h : List ConfigChange) (c : ConfigChange),
      (_add_to_history h c).length = min (h.length + 1) max_history_size := by
    intro h c
    simp only [_add_to_history]
    split
    · rename_i hgt
      rw [List.length_drop]
      simp only [List.length_append, List.length_cons, List.length_nil] at hgt ⊢
      omega
    · rename_i hle
      simp only [List.length_append, List.length_cons, List.length_nil, gt_iff_lt,
        not_lt] at hle ⊢
      omega
  refine ⟨fun h c hb => ?_, hlen, ?_⟩
  · rw [hlen]
    omega
  · intro cs
    induction cs using List.reverseRecOn with
    | nil => rfl
    | append_singleton cs c ih =>
      rw [List.foldl_append, List.foldl_cons, List.foldl_nil, ih]
      by_cases hlt : cs.length < max_history_size
      · have h0 : cs.length - max_history_size = 0 := by omega
        rw [h0, List.drop_zero]
        have hx : (cs ++ [c]).length - max_history_size = 0 := by
          simp only [List.length_append, List.length_cons, List.length_nil]
          omega
        rw [hx, List.drop_zero]
        simp only [_add_to_history]
        rw [if_neg (by
          simp only [List.length_append, List.length_cons, List.length_nil, gt_iff_lt,
            not_lt]
          omega)]
      · have hm : max_history_size = 100 := rfl
        have hdlen : (cs.drop (cs.length - max_history_size)).length = max_history_size := by
          rw [List.length_drop]
          omega
        simp only [_add_to_history]
        rw [if_pos (by
          simp only [List.length_append, List.length_cons, List.length_nil, hdlen,
            gt_iff_lt]
          omega)]
        have e1 : (cs.drop (cs.length - max_history_size) ++ [c]).length -
            max_history_size = 1 := by
          simp only [List.length_append, List.length_cons, List.length_nil, hdlen]
          omega
        have e2 : (cs ++ [c]).length - max_history_size =
            cs.length + 1 - max_history_size := by
          simp only [List.length_append, List.length_cons, List.length_nil]
        rw [e1, e2]
        rw [List.drop_append_of_le_length (by rw [hdlen]; omega),
          List.drop_append_of_le_length (by omega), List.drop_drop]
        have e3 : cs.length - max_history_size + 1 =
            cs.length + 1 - max_history_size := by omega
        rw [e3]

/-- A sample recorded change, used by witnesses. -/
def sampleChange : ConfigChange :=
  ⟨1, "llm", "temperature", PyVal.vFloat 0.7, PyVal.vFloat 1.5, "api", ""⟩

/-- C8 (witness): the bound conjunct applied to the empty log. -/
theorem C8_witness :
    ([] : List ConfigChange).length ≤ max_history_size ∧
    (_add_to_history [] sampleChange).length ≤ max_history_size :=
  ⟨by decide, C8_history_bounded_fifo.1 [] sampleChange (by decide)⟩

/-! ## Rollback reconstruction (C1) -/

/-- The replay-qualification predicate of rollback: `timestamp <= t`. -/
def upTo (t : Rat) (c : ConfigChange) : Bool :=
  decide (c.timestamp ≤ t)

/-- Strict timestamp order (claim hypothesis `t1 < ... < tn`). -/
def tsLt (a b : ConfigChange) : Prop := a.timestamp < b.timestamp

instance : IsTotal ConfigChange tsLe := ⟨fun a b => le_total a.timestamp b.timestamp⟩

instance : IsTrans ConfigChange tsLe := ⟨fun _ _ _ h1 h2 => le_trans h1 h2⟩

lemma rollbackIndexGo_spec (t : Rat) : ∀ (l : List ConfigChange) (i : Int),
    rollbackIndexGo l t i (i - 1) = i - 1 + (l.takeWhile (upTo t)).length := by
  intro l
  induction l with
  | nil => intro i; simp [rollbackIndexGo]
  | cons c cs ih =>
    intro i
    by_cases hc : c.timestamp ≤ t
    · have h1 : rollbackIndexGo (c :: cs) t i (i - 1) = rollbackIndexGo cs t (i + 1) i := by
        simp [rollbackIndexGo, hc]
      have h2 := ih (i + 1)
      rw [show (i + 1 - 1 : Int) = i from by omega] at h2
      rw [h1, h2]
      rw [List.takeWhile_cons_of_pos (by simpa [upTo] using hc)]
      simp only [List.length_cons]
      omega
    · have h1 : rollbackIndexGo (c :: cs) t i (i - 1) = i - 1 := by
        simp [rollbackIndexGo, hc]
      rw [h1, List.takeWhile_cons_of_neg (by simpa [upTo] using hc)]
      simp

lemma rollbackIndex_spec (l : List ConfigChange) (t : Rat) :
    rollbackIndex l t = (l.takeWhile (upTo t)).length - 1 := by
  have := rollbackIndexGo_spec t l 0
  rw [show (0 - 1 : Int) = -1 from by omega] at this
  rw [rollbackIndex, this]
  omega

lemma rollbackReconstruct_eq_takeWhile (history : List ConfigChange) (t : Rat) :
    rollbackReconstruct history t =
      ((pySortedByTimestamp history).takeWhile (upTo t)).foldl applyChange defaultTree := by
  unfold rollbackReconstruct
  have hidx := rollbackIndex_spec (pySortedByTimestamp history) t
  by_cases h : rollbackIndex (pySortedByTimestamp history) t = -1
  · rw [if_pos h]
    rw [hidx] at h
    have hlen : ((pySortedByTimestamp history).takeWhile (upTo t)).length = 0 := by omega
    rw [List.length_eq_zero.mp hlen]
    rfl
  · rw [if_neg h]
    rw [hidx] at h ⊢
    have hlen : 0 < ((pySortedByTimestamp history).takeWhile (upTo t)).length := by omega
    rw [show (((pySortedByTimestamp history).takeWhile (upTo t)).length - 1 + 1 : Int) =
        ((pySortedByTimestamp history).takeWhile (upTo t)).length from by omega]
    rw [show ((((pySortedByTimestamp history).takeWhile (upTo t)).length : Int)).toNat =
        ((pySortedByTimestamp history).takeWhile (upTo t)).length from by omega]
    rw [← (List.prefix_iff_eq_take.mp (List.takeWhile_prefix (upTo t)))]

lemma takeWhile_eq_filter_of_sorted (t : Rat) :
    ∀ (l : List ConfigChange), List.Sorted tsLe l →
      l.takeWhile (upTo t) = l.filter (upTo t) := by
  intro l
  induction l with
  | nil => intro _; rfl
  | cons c cs ih =>
    intro hs
    have hall := (List.sorted_cons.mp hs).1
    have htail := (List.sorted_cons.mp hs).2
    by_cases hc : c.timestamp ≤ t
    · rw [List.takeWhile_cons_of_pos (by simpa [upTo] using hc),
        List.filter_cons_of_pos (by simpa [upTo] using hc), ih htail]
    · rw [List.takeWhile_cons_of_neg (by simpa [upTo] using hc),
        List.filter_cons_of_neg (by simpa [upTo] using hc)]
      have hnil : cs.filter (upTo t) = [] :=
        List.filter_eq_nil_iff.mpr (fun b hb hbt =>
          hc (le_trans (hall b hb) (by simpa [upTo] using hbt)))
      exact hnil.symm

lemma filter_orderedInsert (t : Rat) (c : ConfigChange) :
    ∀ (l : List ConfigChange), List.Sorted tsLe l →
      (List.orderedInsert tsLe c l).filter (upTo t) =
        if upTo t c then List.orderedInsert tsLe c (l.filter (upTo t))
        else l.filter (upTo t) := by
  intro l
  induction l with
  | nil =>
    intro _
    simp only [List.orderedInsert, List.filter]
    by_cases hc : upTo t c = true
    · rw [hc]; simp
    · rw [Bool.eq_false_iff.mpr hc]; simp
  | cons b bs ih =>
    intro hs
    have hall := (List.sorted_cons.mp hs).1
    have htail := (List.sorted_cons.mp hs).2
    by_cases hcb : tsLe c b
    · rw [show List.orderedInsert tsLe c (b :: bs) = c :: b :: bs from by
        simp [List.orderedInsert, hcb]]
      by_cases hc : upTo t c = true
      · rw [List.filter_cons_of_pos hc, if_pos hc]
        by_cases hb : upTo t b = true
        · rw [List.filter_cons_of_pos hb]
          rw [show List.orderedInsert tsLe c (b :: bs.filter (upTo t)) =
              c :: b :: bs.filter (upTo t) from by simp [List.orderedInsert, hcb]]
        · rw [List.filter_cons_of_neg (by simpa using hb)]
          have hbt : ¬b.timestamp ≤ t := by simpa [upTo] using hb
          have hbs : bs.filter (upTo t) = [] :=
            List.filter_eq_nil_iff.mpr (fun e he => by
              simp only [upTo, decide_eq_true_eq]
              exact fun het => hbt (le_trans (hall e he) het))
          rw [hbs, List.orderedInsert]
      · rw [List.filter_cons_of_neg (by simpa using hc), if_neg (by simpa using hc)]
    · rw [show List.orderedInsert tsLe c (b :: bs) =
          b :: List.orderedInsert tsLe c bs from by simp [List.orderedInsert, hcb]]
      have hbltc : b.timestamp < c.timestamp := by
        simpa [tsLe, not_le] using hcb
      by_cases hb : upTo t b = true
      · rw [List.filter_cons_of_pos hb, ih htail]
        by_cases hc : upTo t c = true
        · rw [if_pos hc, if_pos hc, List.filter_cons_of_pos hb]
          rw [show List.orderedInsert tsLe c (b :: bs.filter (upTo t)) =
              b :: List.orderedInsert tsLe c (bs.filter (upTo t)) from by
            simp [List.orderedInsert, hcb]]
        · rw [if_neg (by simpa using hc), if_neg (by simpa using hc),
            List.filter_cons_of_pos hb]
      · have hc : ¬upTo t c = true := by
          simp only [upTo, decide_eq_true_eq]
          intro hct
          have hbt : b.timestamp ≤ t := le_of_lt (lt_of_lt_of_le hbltc hct)
          exact (by simpa [upTo] using hb : ¬b.timestamp ≤ t) hbt
        rw [List.filter_cons_of_neg (by simpa using hb), ih htail,
          if_neg hc, if_neg hc, List.filter_cons_of_neg (by simpa using hb)]

lemma insertionSort_filter (t : Rat) : ∀ (l : List ConfigChange),
    List.insertionSort tsLe (l.filter (upTo t)) =
      (List.insertionSort tsLe l).filter (upTo t) := by
  intro l
  induction l with
  | nil => rfl
  | cons c cs ih =>
    by_cases hc : upTo t c = true
    · rw [List.filter_cons_of_pos hc]
      rw [show List.insertionSort tsLe (c :: cs.filter (upTo t)) =
          List.orderedInsert tsLe c (List.insertionSort tsLe (cs.filter (upTo t))) from rfl]
      rw [ih]
      rw [show List.insertionSort tsLe (c :: cs) =
          List.orderedInsert tsLe c (List.insertionSort tsLe cs) from rfl]
      rw [filter_orderedInsert t c _ (List.sorted_insertionSort tsLe cs), if_pos hc]
    · rw [List.filter_cons_of_neg (by simpa using hc)]
      rw [show List.insertionSort tsLe (c :: cs) =
          List.orderedInsert tsLe c (List.insertionSort tsLe cs) from rfl]
      rw [filter_orderedInsert t c _ (List.sorted_insertionSort tsLe cs),
        if_neg (by simpa using hc), ih]

lemma sorted_pySortedByTimestamp (history : List ConfigChange) :
    List.Sorted tsLe (pySortedByTimestamp history) :=
  List.sorted_insertionSort tsLe history

lemma rollbackReconstruct_eq_filter_sorted (history : List ConfigChange) (t : Rat) :
    rollbackReconstruct history t =
      ((pySortedByTimestamp history).filter (upTo t)).foldl applyChange defaultTree := by
  rw [rollbackReconstruct_eq_takeWhile,
    takeWhile_eq_filter_of_sorted t _ (sorted_pySortedByTimestamp history)]

lemma takeWhile_upTo_strict : ∀ (l : List ConfigChange), List.Pairwise tsLt l →
    ∀ (i : Nat) (hi : i < l.length),
      l.takeWhile (upTo (l.get ⟨i, hi⟩).timestamp) = l.take (i + 1) := by
  intro l
  induction l with
  | nil => intro _ i hi; simp at hi
  | cons c cs ih =>
    intro h i hi
    have hall := (List.pairwise_cons.mp h).1
    have htail := (List.pairwise_cons.mp h).2
    cases i with
    | zero =>
      rw [show ((c :: cs).get ⟨0, hi⟩) = c from rfl]
      rw [List.takeWhile_cons_of_pos (by simp [upTo])]
      cases cs with
      | nil => rfl
      | cons d ds =>
        rw [List.takeWhile_cons_of_neg (by
          simp only [upTo, decide_eq_true_eq, not_le]
          exact hall d (List.mem_cons_self d ds))]
        rfl
    | succ j =>
      have hj : j < cs.length := by simpa using hi
      rw [show ((c :: cs).get ⟨j + 1, hi⟩) = cs.get ⟨j, hj⟩ from rfl]
      rw [List.takeWhile_cons_of_pos (by
        simp only [upTo, decide_eq_true_eq]
        exact le_of_lt (hall _ (cs.get_mem j hj)))]
      rw [ih htail j hj]
      rw [List.take_succ_cons]

lemma pySorted_filter (t : Rat) (history : List ConfigChange) :
    pySortedByTimestamp (history.filter (upTo t)) =
      (pySortedByTimestamp history).filter (upTo t) :=
  insertionSort_filter t history

/-- A successful, changing `set_value` call advances the live tree by
exactly `applyChange` of the change it records; this is what makes the
folded replay in a rollback reproduce "the state immediately after
C_i was applied". -/
lemma set_value_changes_applied (st : ManagerState) (sectionName field : String)
    (v : PyVal) (user descr : String) (now : Rat) (saveOk : Bool) (c : ConfigChange)
    (h : (set_value st sectionName field v user descr now saveOk).2.changes = [c]) :
    (set_value st sectionName field v user descr now saveOk).1.config =
      applyChange st.config c := by
  unfold set_value at h ⊢
  by_cases h1 : pyEq (get_value st.config sectionName field) v = true
  · rw [if_pos h1] at h
    simp at h
  · rw [if_neg h1] at h ⊢
    cases hsec : lookupKey st.config sectionName with
    | none =>
      simp only [hsec] at h
      simp at h
    | some secv =>
      cases secv with
      | vDict sec =>
        cases hfld : lookupKey sec field with
        | none =>
          simp only [hsec, hfld] at h
          simp at h
        | some cur =>
          cases hco : coerceForSet cur v with
          | error e =>
            simp only [hsec, hfld, hco] at h
            simp at h
          | ok v' =>
            simp only [hsec, hfld, hco] at h ⊢
            have hc : c = ⟨now, sectionName, field,
                get_value st.config sectionName field, v', user, descr⟩ := by
              simpa using h.symm
            have hp : hasPath st.config sectionName field = true := by
              simp [hasPath, hsec, hfld]
            rw [hc]
            unfold applyChange
            rw [if_pos hp]
      | vStr s => simp only [hsec] at h; simp at h
      | vInt n => simp only [hsec] at h; simp at h
      | vFloat q => simp only [hsec] at h; simp at h
      | vBool b => simp only [hsec] at h; simp at h
      | vList l => simp only [hsec] at h; simp at h
      | vNone => simp only [hsec] at h; simp at h

/-- C1.  `rollback_to_timestamp(t)` reconstructs the tree by replaying, in
timestamp order, exactly the recorded changes with `timestamp <= t` onto
schema defaults (first conjunct: the resulting live tree is the fold of
`applyChange` over the stably-sorted history restricted to `timestamp <=
t`).  The result is insensitive to changes with `timestamp > t` (second
conjunct: filtering them out of the history beforehand changes nothing).
For a history `C1..Cn` with strictly increasing timestamps,
`rollback_to_timestamp(t_i)` yields the fold of the first `i` changes over
the defaults (third conjunct), which is the state immediately after `C_i`
was applied because every successful changing `set_value` advances the
live tree by exactly `applyChange` of its recorded change (fourth
conjunct). -/
theorem C1_rollback_replays_sorted_prefix :
    (∀ (st : ManagerState) (t : Rat) (saveOk : Bool),
      (rollback_to_timestamp st t saveOk).1.config =
        ((pySortedByTimestamp st.change_history).filter (upTo t)).foldl
          applyChange defaultTree) ∧
    (∀ (st : ManagerState) (t : Rat) (saveOk : Bool),
      (rollback_to_timestamp
          { st with change_history := st.change_history.filter (upTo t) }
          t saveOk).1.config =
        (rollback_to_timestamp st t saveOk).1.config) ∧
    (∀ (hist : List ConfigChange), List.Pairwise tsLt hist →
      ∀ (st : ManagerState), st.change_history = hist →
        ∀ (saveOk : Bool) (i : Nat) (hi : i < hist.length),
          (rollback_to_timestamp st (hist.get ⟨i, hi⟩).timestamp saveOk).1.config =
            (hist.take (i + 1)).foldl applyChange defaultTree) ∧
    (∀ (st : ManagerState) (sectionName field : String) (v : PyVal)
        (user descr : String) (now : Rat) (saveOk : Bool) (c : ConfigChange),
      (set_value st sectionName field v user descr now saveOk).2.changes = [c] →
      (set_value st sectionName field v user descr now saveOk).1.config =
        applyChange st.config c) := by
  refine ⟨?_, ?_, ?_, set_value_changes_applied⟩
  · intro st t saveOk
    rw [show (rollback_to_timestamp st t saveOk).1.config =
        rollbackReconstruct st.change_history t from rfl]
    exact rollbackReconstruct_eq_filter_sorted st.change_history t
  · intro st t saveOk
    rw [show (rollback_to_timestamp
        { st with change_history := st.change_history.filter (upTo t) }
        t saveOk).1.config =
        rollbackReconstruct (st.change_history.filter (upTo t)) t from rfl]
    rw [show (rollback_to_timestamp st t saveOk).1.config =
        rollbackReconstruct st.change_history t from rfl]
    rw [rollbackReconstruct_eq_filter_sorted, rollbackReconstruct_eq_filter_sorted]
    rw [pySorted_filter, List.filter_filter]
    congr 1
    exact List.filter_congr (fun a _ => Bool.and_self (upTo t a))
  · intro hist hpw st hst saveOk i hi
    rw [show (rollback_to_timestamp st (hist.get ⟨i, hi⟩).timestamp saveOk).1.config =
        rollbackReconstruct st.change_history (hist.get ⟨i, hi⟩).timestamp from rfl]
    rw [hst, rollbackReconstruct_eq_takeWhile]
    have hsorted : List.Sorted tsLe hist := hpw.imp (fun hab => le_of_lt hab)
    rw [show pySortedByTimestamp hist = hist from hsorted.insertionSort_eq]
    rw [takeWhile_upTo_strict hist hpw i hi]

/-- The two-change history used by the C1 witness. -/
def rollChange1 : ConfigChange :=
  ⟨1, "backend", "host", PyVal.vStr "0.0.0.0", PyVal.vStr "h1", "api", ""⟩

def rollChange2 : ConfigChange :=
  ⟨2, "backend", "host", PyVal.vStr "h1", PyVal.vStr "h2", "api", ""⟩

/-- C1 (witness): the strictly-increasing-history conjunct applied to a
concrete two-change history at `i = 0`, and the set_value conjunct applied
to a concrete changing call. -/
theorem C1_witness :
    List.Pairwise tsLt [rollChange1, rollChange2] ∧
    (rollback_to_timestamp ⟨defaultTree, [rollChange1, rollChange2], defaultTree⟩
        rollChange1.timestamp true).1.config =
      ([rollChange1, rollChange2].take 1).foldl applyChange defaultTree ∧
    (set_value freshManager "llm" "temperature" (PyVal.vStr "1.5")
        "api" "" 1 true).2.changes =
      [⟨1, "llm", "temperature", PyVal.vFloat 0.7, PyVal.vFloat 1.5, "api", ""⟩] ∧
    (set_value freshManager "llm" "temperature" (PyVal.vStr "1.5")
        "api" "" 1 true).1.config =
      applyChange freshManager.config
        ⟨1, "llm", "temperature", PyVal.vFloat 0.7, PyVal.vFloat 1.5, "api", ""⟩ := by
  have hpw : List.Pairwise tsLt [rollChange1, rollChange2] := by
    refine List.Pairwise.cons (fun b hb => ?_)
      (List.Pairwise.cons (fun b hb => absurd hb (List.not_mem_nil b)) List.Pairwise.nil)
    rw [List.mem_singleton] at hb
    subst hb
    show rollChange1.timestamp < rollChange2.timestamp
    with_unfolding_all rfl
  have hch : (set_value freshManager "llm" "temperature" (PyVal.vStr "1.5")
      "api" "" 1 true).2.changes =
      [⟨1, "llm", "temperature", PyVal.vFloat 0.7, PyVal.vFloat 1.5, "api", ""⟩] := by
    with_unfolding_all rfl
  refine ⟨hpw, ?_, hch, ?_⟩
  · exact C1_rollback_replays_sorted_prefix.2.2.1 [rollChange1, rollChange2] hpw
      ⟨defaultTree, [rollChange1, rollChange2], defaultTree⟩ rfl true 0 (by decide)
  · exact C1_rollback_replays_sorted_prefix.2.2.2 freshManager "llm" "temperature"
      (PyVal.vStr "1.5") "api" "" 1 true _ hch

end ChatbotConfigCore
